import Mathlib

/-
Verification development for the ant-foraging simulation (Ant System / AS model).

Shallow embedding of the simulation core:
  * Position.js  — grid cells with two pheromone channels (`Cell`, `Position.*`);
  * World.js     — the grid, the active-cell list, parameters and the
    evaporation/render pass (`WorldState`, `World.*`);
  * Ant.js       — roulette-wheel selection, neighbor enumeration, tabu filter,
    transition probabilities, ant-cycle deposit and the per-step move
    (`Ant.*`, `AntState`);
  * the driver's per-tick loop (`runTick`).

Object identity: a Position object in the source is uniquely determined by its
grid coordinates (the grid maps each (x, y) to one Position, built once at
construction), so references are modelled as coordinates (`Coord`) and the
mutable grid as a function `Coord → Cell`.

Numbers are modelled exactly (ℚ for pheromone state, ℝ where the code takes
square roots or real powers); floating-point rounding is not modelled.
-/

set_option maxHeartbeats 1600000

namespace AntSim

/-- Cell types of Position.js (TYPE_NORMAL, TYPE_FOOD, TYPE_HOME, TYPE_BARRIER). -/
inductive CellType
  | normal
  | food
  | home
  | barrier
  deriving DecidableEq

/-- The two pheromone channels of Position.js (P_TYPE_FOOD, P_TYPE_HOME). -/
inductive PChan
  | food
  | home
  deriving DecidableEq

/-- Grid coordinates; the identity of a Position object. -/
abbrev Coord := ℤ × ℤ

/-- Mutable state of one grid cell: the two pheromone scalars and the type tag. -/
structure Cell where
  foodP : ℚ
  homeP : ℚ
  ctype : CellType
  deriving DecidableEq

namespace Position

/-- Position.prototype.getP: pheromone value of the given channel. -/
def getP (c : Cell) (pType : PChan) : ℚ :=
  match pType with
  | PChan.food => c.foodP
  | PChan.home => c.homeP

/-- The literal 1e-10 clamp threshold of Position.prototype.evaporatePheromone. -/
def clampEps : ℚ := 1 / 10 ^ 10

/-- JavaScript's Number.MAX_VALUE, the sentinel "infinite" pheromone value:
the largest double, (2^53 − 1) · 2^971. -/
def numberMaxValue : ℚ := (2 ^ 53 - 1) * 2 ^ 971

/-- Position.prototype.evaporatePheromone: if the cell is Normal, multiply both
channels by (1 − rho) and clamp a result below 1e-10 to exactly 0. -/
def evaporatePheromone (rho : ℚ) (c : Cell) : Cell :=
  if c.ctype = CellType.normal then
    let f := c.foodP * (1 - rho)
    let h := c.homeP * (1 - rho)
    { c with
      foodP := if f < clampEps then 0 else f
      homeP := if h < clampEps then 0 else h }
  else c

/-- Position.prototype.addPheromone: add `amount` to the given channel, only on
Normal cells. -/
def addPheromone (amount : ℚ) (pType : PChan) (c : Cell) : Cell :=
  if c.ctype = CellType.normal then
    match pType with
    | PChan.food => { c with foodP := c.foodP + amount }
    | PChan.home => { c with homeP := c.homeP + amount }
  else c

/-- Position.prototype.showPheromone: the opacity handed to the renderer for a
Normal cell (`none` for non-Normal cells, which the code leaves untouched). -/
def showPheromone (c : Cell) (maxVal : ℚ) (showType : PChan) : Option ℚ :=
  if c.ctype = CellType.normal then
    let p := getP c showType
    let a0 := if maxVal > 0 then p / maxVal else 0
    let a1 := if a0 > 1 then 1 else a0
    let a2 := if a1 < 0 then 0 else a1
    some a2
  else none

/-- Position.prototype.changeType: switch the type tag; entering Barrier zeroes
both channels, entering Food sets the food channel to the sentinel and the home
channel to 0; any other transition leaves the pheromone untouched. -/
def changeType (c : Cell) (t : CellType) : Cell :=
  let c1 : Cell := { c with ctype := t }
  let c2 : Cell :=
    if t = CellType.barrier then { c1 with foodP := 0, homeP := 0 } else c1
  if t = CellType.food then { c2 with foodP := numberMaxValue, homeP := 0 } else c2

/-- Position.prototype.move: the cell reference at `pos + direction * deep`, or
`none` when that lands outside the `xl × yl` grid. -/
def move (pos : Coord) (direction : Coord) (xl yl : ℤ) (deep : ℤ) : Option Coord :=
  let x := pos.1 + direction.1 * deep
  let y := pos.2 + direction.2 * deep
  if x < 0 ∨ y < 0 ∨ x ≥ xl ∨ y ≥ yl then none
  else some (x, y)

end Position

/-- The World object: grid dimensions, the cell store, the active-cell list
(checkList) and the home cell reference. -/
structure WorldState where
  xl : ℤ
  yl : ℤ
  grid : Coord → Cell
  checkList : List Coord
  homePosition : Coord

namespace World

/-- World.prototype._getCheckedIndex: index of the first checkList entry equal
to `position` (reference equality = coordinate equality), if any. -/
def getCheckedIndex (checkList : List Coord) (position : Coord) : Option ℕ :=
  checkList.findIdx? (fun c => c = position)

/-- World.prototype.addCheckList on the list itself: splice out the old entry
when present, then push at the end. -/
def addCheckList (checkList : List Coord) (position : Coord) : List Coord :=
  (match getCheckedIndex checkList position with
   | some idx => checkList.eraseIdx idx
   | none => checkList) ++ [position]

/-- World.prototype.addCheckList acting on the whole world state. -/
def addCheckListW (w : WorldState) (position : Coord) : WorldState :=
  { w with checkList := addCheckList w.checkList position }

/-- Replace the cell stored at one coordinate (in-place mutation of the
Position object that coordinate names). -/
def updateGrid (w : WorldState) (pos : Coord) (c : Cell) : WorldState :=
  { w with grid := fun q => if q = pos then c else w.grid q }

/-- First loop of World.prototype.evaporateAndRender: evaporate every checkList
cell in order while tracking the running maximum `maxP` of the displayed
channel over Normal cells (read after that cell's evaporation). -/
def evapPass (rho : ℚ) (showType : PChan) :
    List Coord → (Coord → Cell) → ℚ → (Coord → Cell) × ℚ
  | [], grid, maxP => (grid, maxP)
  | pos :: rest, grid, maxP =>
    let cell := Position.evaporatePheromone rho (grid pos)
    let grid' := fun q => if q = pos then cell else grid q
    let p := Position.getP cell showType
    let maxP' := if cell.ctype = CellType.normal ∧ p > maxP then p else maxP
    evapPass rho showType rest grid' maxP'

/-- World.prototype.evaporateAndRender: evaporate the active cells, then render
each with `renderMax = maxP` when `maxP > 0` and `1` otherwise.  Returns the
updated world and, per active cell, the opacity handed to the renderer. -/
def evaporateAndRender (rho : ℚ) (showType : PChan) (w : WorldState) :
    WorldState × List (Option ℚ) :=
  let res := evapPass rho showType w.checkList w.grid 0
  let renderMax := if res.2 > 0 then res.2 else 1
  ({ w with grid := res.1 },
   w.checkList.map (fun pos => Position.showPheromone (res.1 pos) renderMax showType))

end World

/-- The two ant states (STATUS_FIND_FOOD, STATUS_CARRY_FOOD). -/
inductive AntStatus
  | findFood
  | carryFood
  deriving DecidableEq

namespace Ant

/-- The loop of Ant.rouletteWheel: index `i` counts processed entries,
`cumulative` the running prefix sum; `none` when the loop falls through. -/
def rouletteAux {α : Type} [LinearOrderedField α] (r : α) :
    List α → α → ℕ → Option ℕ
  | [], _, _ => none
  | p :: rest, cumulative, i =>
    if r ≤ cumulative + p then some i else rouletteAux r rest (cumulative + p) (i + 1)

/-- Ant.rouletteWheel: the first index whose cumulative probability reaches the
draw `r`, falling back to the last index. -/
def rouletteWheel {α : Type} [LinearOrderedField α] (probs : List α) (r : α) : ℕ :=
  (rouletteAux r probs 0 0).getD (probs.length - 1)

/-- Ant.prototype._isInPath: tabu-list membership by reference. -/
def isInPath (path : List Coord) (position : Coord) : Bool :=
  path.contains position

/-- Ant.prototype._getNeighbors: all in-bounds, non-Barrier cells reachable
from `position` by one step along a direction of the table `M`. -/
def getNeighbors (M : List Coord) (w : WorldState) (position : Coord) : List Coord :=
  (M.filterMap (fun d => Position.move position d w.xl w.yl 1)).filter
    (fun np => (w.grid np).ctype ≠ CellType.barrier)

/-- The normalization step of Ant.prototype._selectNext: divide by the sum when
it is positive, otherwise fall back to the uniform distribution. -/
def normalizeValues {α : Type} [LinearOrderedField α] (values : List α) : List α :=
  let sum := values.sum
  if sum > 0 then values.map (fun v => v / sum)
  else values.map (fun _ => 1 / (values.length : α))

/-- The desirability value computed for one allowed cell inside
Ant.prototype._selectNext: `tau^alpha * eta^beta` with `tau` and `eta` chosen
by the foraging status.  `Math.pow` on nonnegative arguments is the real power
`Real.rpow`; `Math.sqrt` is `Real.sqrt`. -/
noncomputable def selectValue (status : AntStatus) (alpha beta tau0 : ℝ)
    (homePosition : Coord) (grid : Coord → Cell) (c : Coord) : ℝ :=
  if status = AntStatus.findFood then
    let tau : ℝ := (Position.getP (grid c) PChan.food : ℚ) + tau0
    let eta : ℝ := 1
    Real.rpow tau alpha * Real.rpow eta beta
  else
    let tau : ℝ := (Position.getP (grid c) PChan.home : ℚ) + tau0
    let dx : ℝ := ((c.1 - homePosition.1 : ℤ) : ℝ)
    let dy : ℝ := ((c.2 - homePosition.2 : ℤ) : ℝ)
    let dist : ℝ := Real.sqrt (dx * dx + dy * dy)
    let eta : ℝ := if dist > 0 then 1 / dist else 100
    Real.rpow tau alpha * Real.rpow eta beta

/-- Ant.prototype._selectNext with the uniform draw `r` made explicit: enumerate
neighbors, apply the tabu filter with dead-end escape, compute the transition
probabilities and pick by roulette wheel. -/
noncomputable def selectNext (M : List Coord) (alpha beta tau0 : ℝ) (w : WorldState)
    (status : AntStatus) (homePosition : Coord) (path : List Coord) (r : ℝ)
    (current : Coord) : Option Coord :=
  let neighbors := getNeighbors M w current
  if neighbors = [] then none
  else
    let allowed0 := neighbors.filter (fun n => !(isInPath path n))
    let allowed := if allowed0 = [] then neighbors else allowed0
    let values := allowed.map (selectValue status alpha beta tau0 homePosition w.grid)
    let probs := normalizeValues values
    let idx := rouletteWheel probs r
    allowed[idx]?

/-- The body of the deposit loop: `path[i].addPheromone(deltaTau, pType)`
followed by `world.addCheckList(path[i])`. -/
def depositStep (deltaTau : ℚ) (pType : PChan) (w' : WorldState) (pos : Coord) :
    WorldState :=
  World.addCheckListW
    (World.updateGrid w' pos (Position.addPheromone deltaTau pType (w'.grid pos)))
    pos

/-- Ant.prototype._depositPheromone: no-op on paths of length ≤ 1, otherwise add
`Q / L` to the given channel of each path cell in order and register each as
active. -/
def depositPheromone (Q : ℚ) (pType : PChan) (path : List Coord) (w : WorldState) :
    WorldState :=
  let L := path.length
  if L ≤ 1 then w
  else
    let deltaTau := Q / (L : ℚ)
    path.foldl (depositStep deltaTau pType) w

end Ant

/-- Mutable per-ant state: the current path, the foraging status, the home cell
reference and the per-ant sampled maximum path length. -/
structure AntState where
  path : List Coord
  status : AntStatus
  homePosition : Coord
  maxPath : ℤ

/-- The ambient random generator: a stream of uniform draws in [0,1) and a
cursor, advanced once per Math.random() call. -/
structure Rng where
  stream : ℕ → ℝ
  idx : ℕ

/-- One Math.random() call. -/
def Rng.next (g : Rng) : ℝ × Rng :=
  (g.stream g.idx, { g with idx := g.idx + 1 })

/-- The World.* globals read by ants and by the driver loop (Direction.M,
alpha, beta, tau0, rho, Q, ANT_NUMBER, maxPathLength, maxPathLengthMax,
stepsPerTick, showPheromoneType). -/
structure Params where
  M : List Coord
  alpha : ℝ
  beta : ℝ
  tau0 : ℝ
  rho : ℚ
  Q : ℚ
  antNumber : ℕ
  maxPathLength : ℤ
  maxPathLengthMax : ℤ
  stepsPerTick : ℕ
  showPheromoneType : PChan

/-- Modelled from the spec: Direction.js is absent from the sources; the spec
(§4.3, §9) describes the movement offsets as a fixed connectivity table with
8-connectivity as the natural default, so `M` is the 8 unit-and-diagonal
offset vectors.  Theorems below are proved for an arbitrary table. -/
def Direction.M : List Coord :=
  [(1, 0), (1, 1), (0, 1), (-1, 1), (-1, 0), (-1, -1), (0, -1), (1, -1)]

namespace Ant

/-- Ant.prototype._init: reset to the home cell, seeking food, with a fresh
random maximum path length drawn from [maxPathLength, maxPathLengthMax]. -/
noncomputable def init (minLen maxLen : ℤ) (w : WorldState) (g : Rng) :
    AntState × Rng :=
  let (u, g') := g.next
  let maxPath := minLen + ⌊u * ((maxLen - minLen + 1 : ℤ) : ℝ)⌋
  ({ path := [w.homePosition]
     status := AntStatus.findFood
     homePosition := w.homePosition
     maxPath := maxPath }, g')

/-- Ant.prototype._selectNext as executed: Math.random() is consumed exactly
when the neighbor list is nonempty (inside Ant.rouletteWheel). -/
noncomputable def selectNextR (P : Params) (w : WorldState) (a : AntState) (g : Rng)
    (current : Coord) : Option Coord × Rng :=
  if getNeighbors P.M w current = [] then (none, g)
  else
    let (r, g') := g.next
    (selectNext P.M P.alpha P.beta P.tau0 w a.status a.homePosition a.path r current, g')

/-- Ant.prototype.move: one step of ant movement, with the state transitions on
reaching Food or Home, the ant-cycle deposits, and the path-length cap. -/
noncomputable def move (P : Params) (w : WorldState) (a : AntState) (g : Rng) :
    AntState × WorldState × Rng :=
  let current := a.path.getLastD a.homePosition
  let sel := selectNextR P w a g current
  match sel with
  | (none, g1) =>
    let (a', g2) := init P.maxPathLength P.maxPathLengthMax w g1
    (a', w, g2)
  | (some next, g1) =>
    let res :=
      if (w.grid next).ctype = CellType.food ∧ a.status = AntStatus.findFood then
        let path1 := a.path ++ [next]
        let w1 := depositPheromone P.Q PChan.food path1 w
        ({ a with path := [next], status := AntStatus.carryFood }, w1, g1)
      else if (w.grid next).ctype = CellType.home ∧ a.status = AntStatus.carryFood then
        let path1 := a.path ++ [next]
        let w1 := depositPheromone P.Q PChan.home path1 w
        let (a', g2) := init P.maxPathLength P.maxPathLengthMax w1 g1
        (a', w1, g2)
      else
        ({ a with path := a.path ++ [next] }, World.addCheckListW w next, g1)
    if ((res.1.path.length : ℤ) > res.1.maxPath) then
      let (a3, g3) := init P.maxPathLength P.maxPathLengthMax res.2.1 res.2.2
      (a3, res.2.1, g3)
    else res

end Ant

/-- One observable action of the driver's tick, for stating the update order. -/
inductive TickEvent
  | spawn
  | move (step : ℕ) (antIdx : ℕ)
  | evaporate
  deriving DecidableEq

/-- The spawn loop of the driver (`while (antList.length < World.ANT_NUMBER)`),
unrolled on the missing count. -/
noncomputable def topUpAux (P : Params) (w : WorldState) :
    ℕ → List AntState × Rng → List AntState × Rng
  | 0, s => s
  | k + 1, (ants, g) =>
    let (a, g') := Ant.init P.maxPathLength P.maxPathLengthMax w g
    topUpAux P w k (ants ++ [a], g')

/-- Phase (a) of the tick: top the population up to the configured count,
emitting one spawn event per new ant. -/
noncomputable def topUp (P : Params) (w : WorldState) (ants : List AntState) (g : Rng) :
    (List AntState × Rng) × List TickEvent :=
  let n := P.antNumber - ants.length
  (topUpAux P w n (ants, g), List.replicate n TickEvent.spawn)

/-- The inner loop of one sub-step: each ant moves once, in list order, each
move seeing the world as left by the previous ant. -/
noncomputable def subStep (P : Params) (step : ℕ) :
    List AntState → WorldState → Rng → ℕ →
    (List AntState × WorldState × Rng) × List TickEvent
  | [], w, g, _ => (([], w, g), [])
  | a :: rest, w, g, i =>
    let m := Ant.move P w a g
    let res := subStep P step rest m.2.1 m.2.2 (i + 1)
    ((m.1 :: res.1.1, res.1.2.1, res.1.2.2), TickEvent.move step i :: res.2)

/-- Phase (b) of the tick: `stepsPerTick` sub-steps, counted down by the first
argument while the second tracks the current step number. -/
noncomputable def subSteps (P : Params) :
    ℕ → ℕ → List AntState → WorldState → Rng →
    (List AntState × WorldState × Rng) × List TickEvent
  | 0, _, ants, w, g => ((ants, w, g), [])
  | k + 1, step, ants, w, g =>
    let r1 := subStep P step ants w g 0
    let r2 := subSteps P k (step + 1) r1.1.1 r1.1.2.1 r1.1.2.2
    (r2.1, r1.2 ++ r2.2)

/-- The body of the driver's `_run` (aco.js, current AS variant): top up the
population, run the sub-steps, then exactly one evaporate-and-render pass. -/
noncomputable def runTick (P : Params) (w : WorldState) (ants : List AntState) (g : Rng) :
    (WorldState × List AntState × Rng) × List TickEvent :=
  let t := topUp P w ants g
  let s := subSteps P P.stepsPerTick 0 t.1.1 w t.1.2
  let e := World.evaporateAndRender P.rho P.showPheromoneType s.1.2.1
  ((e.1, s.1.1, s.1.2.2), t.2 ++ (s.2 ++ [TickEvent.evaporate]))

/-- The spec's rendering formula, for comparison with the code:
`clamp(value / max(maxP, 1), 0, 1)`. -/
def specNormalizedIntensity (value maxP : ℚ) : ℚ :=
  min 1 (max 0 (value / max maxP 1))

/-- Statement vocabulary: the grid after evaporating every active cell once. -/
def evapGrid (rho : ℚ) (cl : List Coord) (grid : Coord → Cell) : Coord → Cell :=
  fun q => if q ∈ cl then Position.evaporatePheromone rho (grid q) else grid q

/-- Statement vocabulary: the running maximum of the displayed channel over the
Normal cells of the active list, as evaporateAndRender accumulates it. -/
def maxPOf (showType : PChan) (cl : List Coord) (grid : Coord → Cell) : ℚ :=
  cl.foldl
    (fun a pos =>
      if (grid pos).ctype = CellType.normal ∧ Position.getP (grid pos) showType > a
      then Position.getP (grid pos) showType else a) 0

/-- Statement vocabulary: the Euclidean distance between two cells, as the code
computes it (`Math.sqrt(dx*dx + dy*dy)`). -/
noncomputable def distHome (c home : Coord) : ℝ :=
  Real.sqrt (((c.1 - home.1 : ℤ) : ℝ) * ((c.1 - home.1 : ℤ) : ℝ)
    + ((c.2 - home.2 : ℤ) : ℝ) * ((c.2 - home.2 : ℤ) : ℝ))

/-- A one-cell-type grid used by concrete witnesses. -/
def uniformNormalGrid : Coord → Cell := fun _ => ⟨0, 0, CellType.normal⟩

/-- A grid of Normal cells holding food pheromone 1/2, used by the rendering
counterexample. -/
def halfFoodGrid : Coord → Cell := fun _ => ⟨1/2, 0, CellType.normal⟩

/-- A 1×3 corridor: Home at (0,0), Food at (0,2), Normal in between.  In this
world a path that revisits (0,1) via the dead-end escape rule is reachable. -/
def corridorGrid : Coord → Cell := fun q =>
  if q = (0, 0) then ⟨0, 0, CellType.home⟩
  else if q = (0, 2) then ⟨0, 0, CellType.food⟩
  else ⟨0, 0, CellType.normal⟩

/-! ## Helper lemmas -/

/-- Evaporation never changes the type tag. -/
theorem evaporatePheromone_ctype (rho : ℚ) (c : Cell) :
    (Position.evaporatePheromone rho c).ctype = c.ctype := by
  unfold Position.evaporatePheromone
  split <;> rfl

/-- Iterated evaporation never changes the type tag. -/
theorem iterate_evaporatePheromone_ctype (rho : ℚ) (c : Cell) (n : ℕ) :
    ((Position.evaporatePheromone rho)^[n] c).ctype = c.ctype := by
  induction n with
  | zero => rfl
  | succ n ih =>
    rw [Function.iterate_succ_apply', evaporatePheromone_ctype, ih]

/-- What evaporation does to one channel of a Normal cell. -/
theorem evaporatePheromone_getP (rho : ℚ) (c : Cell) (ch : PChan)
    (h : c.ctype = CellType.normal) :
    Position.getP (Position.evaporatePheromone rho c) ch =
      if Position.getP c ch * (1 - rho) < Position.clampEps then 0
      else Position.getP c ch * (1 - rho) := by
  unfold Position.evaporatePheromone
  rw [if_pos h]
  cases ch <;> rfl

/-- On a Normal cell one channel stays nonnegative under evaporation. -/
theorem evaporatePheromone_getP_nonneg (rho : ℚ) (c : Cell) (ch : PChan)
    (h : c.ctype = CellType.normal) (h0 : 0 ≤ Position.getP c ch) (h1 : rho ≤ 1) :
    0 ≤ Position.getP (Position.evaporatePheromone rho c) ch := by
  rw [evaporatePheromone_getP rho c ch h]
  split
  · exact le_refl 0
  · exact mul_nonneg h0 (by linarith)

/-- One channel of a Normal cell after `n` evaporations is at most the
geometric decay `p · (1 − rho)^n`. -/
theorem iterate_evaporatePheromone_le (rho : ℚ) (c : Cell) (ch : PChan)
    (h : c.ctype = CellType.normal) (h0 : 0 ≤ Position.getP c ch)
    (h1 : 0 ≤ 1 - rho) (n : ℕ) :
    Position.getP ((Position.evaporatePheromone rho)^[n] c) ch
      ≤ Position.getP c ch * (1 - rho) ^ n := by
  induction n with
  | zero => simp
  | succ n ih =>
    rw [Function.iterate_succ_apply',
      evaporatePheromone_getP rho _ ch (by rw [iterate_evaporatePheromone_ctype]; exact h)]
    have hpow : (0:ℚ) ≤ Position.getP c ch * (1 - rho) ^ (n + 1) :=
      mul_nonneg h0 (pow_nonneg h1 _)
    split
    · exact hpow
    · calc Position.getP ((Position.evaporatePheromone rho)^[n] c) ch * (1 - rho)
          ≤ (Position.getP c ch * (1 - rho) ^ n) * (1 - rho) :=
            mul_le_mul_of_nonneg_right ih h1
        _ = Position.getP c ch * (1 - rho) ^ (n + 1) := by ring

/-- One channel of a Normal cell stays nonnegative under iterated evaporation. -/
theorem iterate_evaporatePheromone_nonneg (rho : ℚ) (c : Cell) (ch : PChan)
    (h : c.ctype = CellType.normal) (h0 : 0 ≤ Position.getP c ch) (h1 : rho ≤ 1) (n : ℕ) :
    0 ≤ Position.getP ((Position.evaporatePheromone rho)^[n] c) ch := by
  induction n with
  | zero => exact h0
  | succ n ih =>
    rw [Function.iterate_succ_apply']
    exact evaporatePheromone_getP_nonneg rho _ ch
      (by rw [iterate_evaporatePheromone_ctype]; exact h) ih h1

/-! ## Claim theorems -/

/-- C3: `evaporate(rho)` multiplies both channels of a Normal cell by
`(1 − rho)`, clamping a result below 1e-10 to exactly 0; non-Normal cells are
unchanged; for a Normal cell with a positive channel and `rho ∈ (0,1)` each
evaporation strictly decreases that channel and some number of iterations
drives it to exactly 0. -/
theorem claimC3_evaporation (rho : ℚ) (c : Cell) (ch : PChan) :
    (c.ctype ≠ CellType.normal → Position.evaporatePheromone rho c = c)
    ∧ (c.ctype = CellType.normal →
        Position.getP (Position.evaporatePheromone rho c) ch =
          if Position.getP c ch * (1 - rho) < Position.clampEps then 0
          else Position.getP c ch * (1 - rho))
    ∧ (c.ctype = CellType.normal → 0 < rho → rho < 1 → 0 < Position.getP c ch →
        Position.getP (Position.evaporatePheromone rho c) ch < Position.getP c ch)
    ∧ (c.ctype = CellType.normal → 0 < rho → rho < 1 → 0 < Position.getP c ch →
        ∃ n, Position.getP ((Position.evaporatePheromone rho)^[n] c) ch = 0) := by
  refine ⟨?_, fun h => evaporatePheromone_getP rho c ch h, ?_, ?_⟩
  · intro h
    unfold Position.evaporatePheromone
    rw [if_neg h]
  · intro h hr0 hr1 hp
    rw [evaporatePheromone_getP rho c ch h]
    have hlt : Position.getP c ch * (1 - rho) < Position.getP c ch := by
      nlinarith
    split
    · exact hp
    · exact hlt
  · intro h hr0 hr1 hp
    have heps : (0:ℚ) < Position.clampEps := by norm_num [Position.clampEps]
    obtain ⟨N, hN⟩ :=
      exists_pow_lt_of_lt_one (div_pos heps hp) (by linarith : (1:ℚ) - rho < 1)
    refine ⟨N + 1, ?_⟩
    have hvN : Position.getP ((Position.evaporatePheromone rho)^[N] c) ch
        < Position.clampEps := by
      have hle := iterate_evaporatePheromone_le rho c ch h (le_of_lt hp)
        (by linarith) N
      have : Position.getP c ch * (1 - rho) ^ N < Position.clampEps := by
        rw [lt_div_iff₀ hp] at hN
        nlinarith
      linarith
    have hv0 : 0 ≤ Position.getP ((Position.evaporatePheromone rho)^[N] c) ch :=
      iterate_evaporatePheromone_nonneg rho c ch h (le_of_lt hp) (by linarith) N
    rw [Function.iterate_succ_apply',
      evaporatePheromone_getP rho _ ch (by rw [iterate_evaporatePheromone_ctype]; exact h)]
    rw [if_pos]
    calc Position.getP ((Position.evaporatePheromone rho)^[N] c) ch * (1 - rho)
        ≤ Position.getP ((Position.evaporatePheromone rho)^[N] c) ch * 1 :=
          mul_le_mul_of_nonneg_left (by linarith) hv0
      _ < Position.clampEps := by linarith

/-- Witness for C3 at a concrete Normal cell with food pheromone 1 and
`rho = 1/2`. -/
theorem claimC3_witness :
    Position.getP
        (Position.evaporatePheromone (1/2) ⟨1, 1, CellType.normal⟩) PChan.food = 1/2
    ∧ Position.getP
        (Position.evaporatePheromone (1/2) ⟨1, 1, CellType.normal⟩) PChan.food < 1
    ∧ ∃ n, Position.getP
        ((Position.evaporatePheromone (1/2))^[n] ⟨1, 1, CellType.normal⟩) PChan.food = 0 := by
  have h := claimC3_evaporation (1/2) ⟨1, 1, CellType.normal⟩ PChan.food
  refine ⟨?_, ?_, ?_⟩
  · rw [h.2.1 rfl]
    norm_num [Position.clampEps, Position.getP]
  · have := h.2.2.1 rfl (by norm_num) (by norm_num) (by norm_num [Position.getP])
    simpa [Position.getP] using this
  · exact h.2.2.2 rfl (by norm_num) (by norm_num) (by norm_num [Position.getP])

/-- The splice-out step of addCheckList is exactly first-occurrence removal. -/
theorem spliceOut_eq_erase (cl : List Coord) (q : Coord) :
    (match World.getCheckedIndex cl q with
     | some idx => cl.eraseIdx idx
     | none => cl) = cl.erase q := by
  induction cl with
  | nil => rfl
  | cons c cl ih =>
    unfold World.getCheckedIndex at *
    rw [List.findIdx?_cons]
    by_cases hc : c = q
    · subst hc
      simp [List.erase_cons_head]
    · rw [if_neg (by simpa using hc), List.findIdx?_succ,
        List.erase_cons_tail (by simpa using hc)]
      cases h : List.findIdx? (fun x => decide (x = q)) cl 0 with
      | none =>
        rw [h] at ih
        simpa using congrArg (List.cons c) ih
      | some i =>
        rw [h] at ih
        simpa [List.eraseIdx_cons_succ] using congrArg (List.cons c) ih

/-- addCheckList removes the old occurrence and appends at the end. -/
theorem addCheckList_eq_erase_append (cl : List Coord) (q : Coord) :
    World.addCheckList cl q = cl.erase q ++ [q] := by
  unfold World.addCheckList
  rw [spliceOut_eq_erase]

/-- addCheckList preserves freedom from duplicates. -/
theorem addCheckList_nodup (cl : List Coord) (q : Coord) (h : cl.Nodup) :
    (World.addCheckList cl q).Nodup := by
  rw [addCheckList_eq_erase_append]
  refine List.nodup_append.2 ⟨h.erase q, List.nodup_singleton q, ?_⟩
  intro a ha hb
  rw [List.mem_singleton] at hb
  subst hb
  exact h.not_mem_erase ha

/-- addCheckList never removes other members. -/
theorem mem_addCheckList (cl : List Coord) (q p : Coord) (h : p ∈ cl ∨ p = q) :
    p ∈ World.addCheckList cl q := by
  rw [addCheckList_eq_erase_append]
  rcases h with h | h
  · by_cases hpq : p = q
    · subst hpq
      exact List.mem_append_right _ (List.mem_singleton_self p)
    · exact List.mem_append_left _ ((List.mem_erase_of_ne hpq).2 h)
  · subst h
    exact List.mem_append_right _ (List.mem_singleton_self p)

/-- Any foldl of addCheckList starting from a duplicate-free list stays
duplicate-free. -/
theorem foldl_addCheckList_nodup (qs : List Coord) :
    ∀ cl : List Coord, cl.Nodup → (qs.foldl World.addCheckList cl).Nodup := by
  induction qs with
  | nil => exact fun cl h => h
  | cons q qs ih =>
    intro cl h
    exact ih _ (addCheckList_nodup cl q h)

/-- C9: the active-cell list stays duplicate-free under any sequence of
addCheckList calls; re-inserting a present cell moves it to the
most-recently-touched end without growing the list. -/
theorem claimC9_active_set (cl : List Coord) (q : Coord) (qs : List Coord) :
    (cl.Nodup → (World.addCheckList cl q).Nodup)
    ∧ (q ∈ cl → (World.addCheckList cl q).length = cl.length)
    ∧ (World.addCheckList cl q).getLast? = some q
    ∧ (qs.foldl World.addCheckList []).Nodup := by
  refine ⟨addCheckList_nodup cl q, ?_, ?_, foldl_addCheckList_nodup qs [] List.nodup_nil⟩
  · intro hq
    rw [addCheckList_eq_erase_append, List.length_append, List.length_singleton]
    have h1 : (cl.erase q).length = cl.length - 1 := List.length_erase_of_mem hq
    have h2 : 0 < cl.length := List.length_pos_of_mem hq
    omega
  · rw [addCheckList_eq_erase_append]
    exact List.getLast?_concat _

/-- Witness for C9: re-touching the head of a two-element active list keeps
the size at 2, keeps it duplicate-free, and moves the cell to the end. -/
theorem claimC9_witness :
    (World.addCheckList [((0:ℤ), (0:ℤ)), (1, 1)] (0, 0)).length = 2
    ∧ (World.addCheckList [((0:ℤ), (0:ℤ)), (1, 1)] (0, 0)).Nodup
    ∧ (World.addCheckList [((0:ℤ), (0:ℤ)), (1, 1)] (0, 0)).getLast? = some (0, 0) := by
  have h := claimC9_active_set [((0:ℤ), (0:ℤ)), (1, 1)] (0, 0) []
  exact ⟨h.2.1 (by decide), h.1 (by decide), h.2.2.1⟩

/-- addPheromone never changes the type tag. -/
theorem addPheromone_ctype (a : ℚ) (t : PChan) (c : Cell) :
    (Position.addPheromone a t c).ctype = c.ctype := by
  unfold Position.addPheromone
  split
  · cases t <;> rfl
  · rfl

/-- addPheromone is a no-op on non-Normal cells. -/
theorem addPheromone_of_not_normal (a : ℚ) (t : PChan) (c : Cell)
    (h : c.ctype ≠ CellType.normal) : Position.addPheromone a t c = c := by
  unfold Position.addPheromone
  exact if_neg h

/-- addPheromone adds to the targeted channel of a Normal cell. -/
theorem addPheromone_getP_self (a : ℚ) (t : PChan) (c : Cell)
    (h : c.ctype = CellType.normal) :
    Position.getP (Position.addPheromone a t c) t = Position.getP c t + a := by
  unfold Position.addPheromone Position.getP
  rw [if_pos h]
  cases t <;> rfl

/-- addPheromone leaves the other channel of a Normal cell alone. -/
theorem addPheromone_getP_other (a : ℚ) (t ch : PChan) (c : Cell)
    (h : ch ≠ t) :
    Position.getP (Position.addPheromone a t c) ch = Position.getP c ch := by
  cases t <;> cases ch <;>
    first
      | exact absurd rfl h
      | (unfold Position.addPheromone Position.getP
         by_cases hc : c.ctype = CellType.normal
         · rw [if_pos hc]
         · rw [if_neg hc])

/-- The grid after one deposit step, pointwise. -/
theorem depositStep_grid (delta : ℚ) (pType : PChan) (w : WorldState) (pos q : Coord) :
    (Ant.depositStep delta pType w pos).grid q
      = if q = pos then Position.addPheromone delta pType (w.grid pos) else w.grid q := rfl

/-- The checkList after one deposit step. -/
theorem depositStep_checkList (delta : ℚ) (pType : PChan) (w : WorldState) (pos : Coord) :
    (Ant.depositStep delta pType w pos).checkList
      = World.addCheckList w.checkList pos := rfl

/-- Pointwise description of the whole deposit loop: each cell receives one
addPheromone call per occurrence in the path; everything else is untouched. -/
theorem depositFold_grid (delta : ℚ) (pType : PChan) :
    ∀ (path : List Coord) (w : WorldState) (q : Coord),
      (((path.foldl (Ant.depositStep delta pType) w).grid q).ctype = (w.grid q).ctype)
      ∧ ((w.grid q).ctype ≠ CellType.normal →
          (path.foldl (Ant.depositStep delta pType) w).grid q = w.grid q)
      ∧ ((w.grid q).ctype = CellType.normal →
          Position.getP ((path.foldl (Ant.depositStep delta pType) w).grid q) pType
            = Position.getP (w.grid q) pType + (path.count q : ℚ) * delta
          ∧ ∀ ch, ch ≠ pType →
              Position.getP ((path.foldl (Ant.depositStep delta pType) w).grid q) ch
                = Position.getP (w.grid q) ch)
      ∧ (q ∉ path → (path.foldl (Ant.depositStep delta pType) w).grid q = w.grid q) := by
  intro path
  induction path with
  | nil =>
    intro w q
    refine ⟨rfl, fun _ => rfl, fun _ => ⟨by simp, fun ch _ => rfl⟩, fun _ => rfl⟩
  | cons a path ih =>
    intro w q
    rw [List.foldl_cons]
    obtain ⟨ih1, ih2, ih3, ih4⟩ := ih (Ant.depositStep delta pType w a) q
    have hstep := depositStep_grid delta pType w a q
    have hctype : ((Ant.depositStep delta pType w a).grid q).ctype = (w.grid q).ctype := by
      rw [hstep]
      split
      · next hqa => rw [hqa, addPheromone_ctype]
      · rfl
    refine ⟨ih1.trans hctype, ?_, ?_, ?_⟩
    · intro hn
      have hn' : ((Ant.depositStep delta pType w a).grid q).ctype ≠ CellType.normal := by
        rw [hctype]; exact hn
      rw [ih2 hn', hstep]
      split
      · next hqa => rw [hqa]; exact addPheromone_of_not_normal delta pType _ (hqa ▸ hn)
      · rfl
    · intro hn
      have hn' : ((Ant.depositStep delta pType w a).grid q).ctype = CellType.normal := by
        rw [hctype]; exact hn
      obtain ⟨ihself, ihother⟩ := ih3 hn'
      constructor
      · rw [ihself, hstep]
        by_cases hqa : q = a
        · subst hqa
          rw [if_pos rfl, addPheromone_getP_self delta pType _ hn]
          have hcount : (q :: path).count q = path.count q + 1 := by
            simp [List.count_cons]
          rw [hcount]
          push_cast
          ring
        · rw [if_neg hqa]
          have hcount : (a :: path).count q = path.count q := by
            simp [List.count_cons, hqa]
          rw [hcount]
      · intro ch hch
        rw [ihother ch hch, hstep]
        split
        · next hqa => rw [hqa, addPheromone_getP_other delta pType ch _ hch]
        · rfl
    · intro hq
      have hqa : q ≠ a := fun h => hq (h ▸ List.mem_cons_self a path)
      have hqp : q ∉ path := fun h => hq (List.mem_cons_of_mem a h)
      rw [ih4 hqp, hstep, if_neg hqa]

/-- Every path cell ends up registered in the checkList by the deposit loop,
and previously registered cells stay registered. -/
theorem depositFold_checkList (delta : ℚ) (pType : PChan) :
    ∀ (path : List Coord) (w : WorldState) (p : Coord),
      (p ∈ w.checkList ∨ p ∈ path) →
      p ∈ (path.foldl (Ant.depositStep delta pType) w).checkList := by
  intro path
  induction path with
  | nil =>
    intro w p hp
    rcases hp with hp | hp
    · exact hp
    · cases hp
  | cons a path ih =>
    intro w p hp
    rw [List.foldl_cons]
    refine ih (Ant.depositStep delta pType w a) p ?_
    rcases hp with hp | hp
    · exact Or.inl (by rw [depositStep_checkList]; exact mem_addCheckList _ _ _ (Or.inl hp))
    · rcases List.mem_cons.1 hp with hpa | hpp
      · exact Or.inl (by rw [depositStep_checkList]; exact mem_addCheckList _ _ _ (Or.inr hpa))
      · exact Or.inr hpp

/-- On a duplicate-free list every member has multiplicity one. -/
theorem count_eq_one_of_nodup_mem {l : List Coord} {a : Coord}
    (hnd : l.Nodup) (ha : a ∈ l) : l.count a = 1 := by
  induction l with
  | nil => cases ha
  | cons b l ih =>
    rw [List.count_cons]
    rcases List.mem_cons.1 ha with h | h
    · subst h
      have hnot : a ∉ l := (List.nodup_cons.1 hnd).1
      simp [List.count_eq_zero.2 hnot]
    · have hba : ¬a = b := by
        rintro rfl
        exact (List.nodup_cons.1 hnd).1 h
      simp [ih (List.nodup_cons.1 hnd).2 h, hba, Ne.symm hba]

/-- Counterexample to C2 as stated: on the corridor path
[home, (0,1), home, (0,1), food] — reachable through the dead-end escape —
L = 5 and Δτ = 20, but the Normal cell (0,1), which occurs twice, gains 40,
not the claimed exact Q/L = 20. -/
theorem claimC2_counterexample :
    (corridorGrid (0, 1)).ctype = CellType.normal
    ∧ Position.getP
        ((Ant.depositPheromone 100 PChan.food
            [((0:ℤ), (0:ℤ)), (0, 1), (0, 0), (0, 1), (0, 2)]
            ⟨1, 3, corridorGrid, [], (0, 0)⟩).grid (0, 1)) PChan.food = 40
    ∧ ((40:ℚ) ≠ Position.getP (corridorGrid (0, 1)) PChan.food
        + 100 / (([((0:ℤ), (0:ℤ)), (0, 1), (0, 0), (0, 1), (0, 2)] : List Coord).length : ℚ)) := by
  refine ⟨rfl, ?_, by norm_num [corridorGrid, Position.getP]⟩
  norm_num [Ant.depositPheromone, Ant.depositStep, World.addCheckListW, World.updateGrid,
    World.addCheckList, World.getCheckedIndex, Position.addPheromone, Position.getP,
    corridorGrid]

/-- C2 (amended): deposit is a no-op for L ≤ 1; otherwise each Normal cell
gains Q/L once per occurrence in the path (so exactly Q/L on duplicate-free
paths, and 25 when Q = 100 and L = 4), non-Normal cells and cells off the path
are unchanged, and every path cell is registered active. -/
theorem claimC2_deposit_amended (Q : ℚ) (pType : PChan) (path : List Coord)
    (w : WorldState) :
    (path.length ≤ 1 → Ant.depositPheromone Q pType path w = w)
    ∧ (1 < path.length →
        (∀ pos,
          ((w.grid pos).ctype = CellType.normal →
            Position.getP ((Ant.depositPheromone Q pType path w).grid pos) pType
              = Position.getP (w.grid pos) pType
                + (path.count pos : ℚ) * (Q / (path.length : ℚ))
            ∧ ∀ ch, ch ≠ pType →
                Position.getP ((Ant.depositPheromone Q pType path w).grid pos) ch
                  = Position.getP (w.grid pos) ch)
          ∧ ((w.grid pos).ctype ≠ CellType.normal →
              (Ant.depositPheromone Q pType path w).grid pos = w.grid pos)
          ∧ (pos ∉ path → (Ant.depositPheromone Q pType path w).grid pos = w.grid pos))
        ∧ (∀ pos ∈ path, pos ∈ (Ant.depositPheromone Q pType path w).checkList)
        ∧ (path.Nodup → ∀ pos ∈ path, (w.grid pos).ctype = CellType.normal →
            Position.getP ((Ant.depositPheromone Q pType path w).grid pos) pType
              = Position.getP (w.grid pos) pType + Q / (path.length : ℚ))
        ∧ (path.Nodup → Q = 100 → path.length = 4 →
            ∀ pos ∈ path, (w.grid pos).ctype = CellType.normal →
              Position.getP ((Ant.depositPheromone Q pType path w).grid pos) pType
                = Position.getP (w.grid pos) pType + 25)) := by
  constructor
  · intro hL
    unfold Ant.depositPheromone
    exact if_pos hL
  · intro hL
    have hdep : Ant.depositPheromone Q pType path w
        = path.foldl (Ant.depositStep (Q / (path.length : ℚ)) pType) w := by
      unfold Ant.depositPheromone
      exact if_neg (by omega)
    rw [hdep]
    refine ⟨?_, ?_, ?_, ?_⟩
    · intro pos
      obtain ⟨h1, h2, h3, h4⟩ := depositFold_grid (Q / (path.length : ℚ)) pType path w pos
      exact ⟨fun hn => h3 hn, h2, h4⟩
    · intro pos hpos
      exact depositFold_checkList _ pType path w pos (Or.inr hpos)
    · intro hnd pos hpos hn
      obtain ⟨-, -, h3, -⟩ := depositFold_grid (Q / (path.length : ℚ)) pType path w pos
      rw [(h3 hn).1, count_eq_one_of_nodup_mem hnd hpos]
      push_cast
      ring
    · intro hnd hQ hL4 pos hpos hn
      obtain ⟨-, -, h3, -⟩ := depositFold_grid (Q / (path.length : ℚ)) pType path w pos
      rw [(h3 hn).1, count_eq_one_of_nodup_mem hnd hpos, hQ, hL4]
      norm_num

/-- Witness for C2 (amended): Q = 100 on the duplicate-free 2-cell path
[(0,0), (0,1)] adds exactly 50 to the food channel of each cell. -/
theorem claimC2_witness :
    Position.getP
      ((Ant.depositPheromone 100 PChan.food [((0:ℤ), (0:ℤ)), (0, 1)]
          ⟨1, 2, uniformNormalGrid, [], (0, 0)⟩).grid (0, 0)) PChan.food = 50 := by
  have h := claimC2_deposit_amended 100 PChan.food [((0:ℤ), (0:ℤ)), (0, 1)]
    ⟨1, 2, uniformNormalGrid, [], (0, 0)⟩
  have h50 := (h.2 (by norm_num)).2.2.1 (by decide) (0, 0) (by simp) rfl
  rw [h50]
  norm_num [Position.getP, uniformNormalGrid]

/-- Summing a pointwise division divides the sum. -/
theorem list_sum_map_div (l : List ℝ) (s : ℝ) :
    (l.map (fun v => v / s)).sum = l.sum / s := by
  induction l with
  | nil => simp
  | cons x xs ih => simp [ih, add_div]

/-- C5: for every non-empty value list the probability vector of _selectNext
sums to exactly 1; a positive sum divides each value by the sum, a zero sum
yields the uniform distribution 1/N. -/
theorem claimC5_normalization (values : List ℝ) (h : values ≠ []) :
    (Ant.normalizeValues values).sum = 1
    ∧ (values.sum > 0 →
        Ant.normalizeValues values = values.map (fun v => v / values.sum))
    ∧ (values.sum = 0 →
        Ant.normalizeValues values
          = values.map (fun _ => 1 / (values.length : ℝ))) := by
  have hlen : (values.length : ℝ) ≠ 0 := by
    simpa using h
  unfold Ant.normalizeValues
  by_cases hs : values.sum > 0
  · rw [if_pos hs]
    refine ⟨?_, fun _ => rfl, fun hz => absurd hz (by linarith)⟩
    rw [list_sum_map_div]
    exact div_self (ne_of_gt hs)
  · rw [if_neg hs]
    refine ⟨?_, fun hp => absurd hp hs, fun _ => rfl⟩
    have : (values.map fun _ => 1 / (values.length : ℝ)) =
        List.replicate values.length (1 / (values.length : ℝ)) := by
      simp [List.map_const']
    rw [this, List.sum_replicate, nsmul_eq_mul]
    field_simp

/-- Witness for C5 on the value list [1, 3]. -/
theorem claimC5_witness :
    (Ant.normalizeValues [(1:ℝ), 3]).sum = 1
    ∧ Ant.normalizeValues [(1:ℝ), 3]
        = [(1:ℝ), 3].map (fun v => v / ([(1:ℝ), 3]).sum) := by
  have h := claimC5_normalization [(1:ℝ), 3] (by simp)
  exact ⟨h.1, h.2.1 (by norm_num)⟩

/-- The fall-through case of the roulette loop: no entry qualified. -/
theorem rouletteAux_eq_none (r : ℚ) :
    ∀ (l : List ℚ) (c : ℚ) (i : ℕ),
      Ant.rouletteAux r l c i = none
        ↔ ∀ m, m < l.length → c + (l.take (m+1)).sum < r := by
  intro l
  induction l with
  | nil => simp [Ant.rouletteAux]
  | cons p rest ih =>
    intro c i
    unfold Ant.rouletteAux
    by_cases hc : r ≤ c + p
    · rw [if_pos hc]
      constructor
      · intro hcon
        cases hcon
      · intro hall
        have h0 := hall 0 (by simp)
        simp at h0
        linarith
    · rw [if_neg hc, ih (c + p) (i + 1)]
      constructor
      · intro hall m hm
        cases m with
        | zero =>
          simp only [List.take_succ_cons, List.take_zero, List.sum_cons, List.sum_nil]
          linarith [lt_of_not_ge hc]
        | succ m =>
          have := hall m (by simpa using hm)
          simp only [List.take_succ_cons, List.sum_cons]
          linarith
      · intro hall m hm
        have := hall (m + 1) (by simpa using hm)
        simp only [List.take_succ_cons, List.sum_cons] at this
        linarith

/-- The hit case of the roulette loop: the returned index is the first whose
cumulative sum reaches the draw. -/
theorem rouletteAux_eq_some (r : ℚ) :
    ∀ (l : List ℚ) (c : ℚ) (i j : ℕ),
      Ant.rouletteAux r l c i = some j →
      i ≤ j ∧ j - i < l.length ∧ r ≤ c + (l.take (j - i + 1)).sum
      ∧ ∀ m, m < j - i → c + (l.take (m+1)).sum < r := by
  intro l
  induction l with
  | nil => intro c i j hcon; cases hcon
  | cons p rest ih =>
    intro c i j hj
    unfold Ant.rouletteAux at hj
    by_cases hc : r ≤ c + p
    · rw [if_pos hc] at hj
      cases hj
      refine ⟨le_refl i, by simp, ?_, ?_⟩
      · simpa using hc
      · intro m hm
        omega
    · rw [if_neg hc] at hj
      obtain ⟨h1, h2, h3, h4⟩ := ih (c + p) (i + 1) j hj
      have hji : j - i = (j - (i + 1)) + 1 := by omega
      refine ⟨by omega, by simp; omega, ?_, ?_⟩
      · rw [hji, List.take_succ_cons, List.sum_cons]
        linarith
      · intro m hm
        cases m with
        | zero =>
          simp only [List.take_succ_cons, List.take_zero, List.sum_cons, List.sum_nil]
          linarith [lt_of_not_ge hc]
        | succ m =>
          have := h4 m (by omega)
          simp only [List.take_succ_cons, List.sum_cons]
          linarith

/-- C8: the roulette wheel returns the first index whose cumulative
probability reaches the draw `r`, the last index when no prefix sum reaches
`r`, and always a valid index for a non-empty vector. -/
theorem claimC8_roulette (probs : List ℚ) (r : ℚ) (h : probs ≠ []) :
    Ant.rouletteWheel probs r < probs.length
    ∧ ((∃ j, j < probs.length ∧ r ≤ (probs.take (j+1)).sum) →
        r ≤ (probs.take (Ant.rouletteWheel probs r + 1)).sum
        ∧ ∀ m, m < Ant.rouletteWheel probs r → (probs.take (m+1)).sum < r)
    ∧ ((∀ j, j < probs.length → (probs.take (j+1)).sum < r) →
        Ant.rouletteWheel probs r = probs.length - 1) := by
  have hpos : 0 < probs.length := List.length_pos.2 h
  unfold Ant.rouletteWheel
  cases haux : Ant.rouletteAux r probs 0 0 with
  | none =>
    have hall := (rouletteAux_eq_none r probs 0 0).1 haux
    simp only [Option.getD_none]
    refine ⟨by omega, ?_, fun _ => by trivial⟩
    rintro ⟨j, hj, hrj⟩
    have := hall j hj
    simp at this
    linarith
  | some j =>
    obtain ⟨-, h2, h3, h4⟩ := rouletteAux_eq_some r probs 0 0 j haux
    simp only [Nat.sub_zero] at h2 h3 h4
    simp only [Option.getD_some]
    refine ⟨h2, fun _ => ⟨by simpa using h3, fun m hm => by simpa using h4 m hm⟩, ?_⟩
    intro hall
    have := hall j h2
    simp at h3
    linarith

/-- Witness for C8 on the probability vector [0.1, 0.3, 0.6] with draw 1/3. -/
theorem claimC8_witness :
    Ant.rouletteWheel [(1:ℚ)/10, 3/10, 6/10] (1/3) < 3
    ∧ Ant.rouletteWheel [(1:ℚ)/10, 3/10, 6/10] (1/3) = 1 := by
  refine ⟨?_, by norm_num [Ant.rouletteWheel, Ant.rouletteAux]⟩
  have h := claimC8_roulette [(1:ℚ)/10, 3/10, 6/10] (1/3) (by simp)
  simpa using h.1

/-- Folds agree when their step functions agree on the list's members. -/
theorem foldl_ext_mem {β γ : Type} (l : List γ) (f g : β → γ → β)
    (h : ∀ b x, x ∈ l → f b x = g b x) : ∀ a, l.foldl f a = l.foldl g a := by
  induction l with
  | nil => intro a; rfl
  | cons y l ih =>
    intro a
    rw [List.foldl_cons, List.foldl_cons, h a y (List.mem_cons_self y l)]
    exact ih (fun b x hx => h b x (List.mem_cons_of_mem y hx)) _

/-- The running-max fold bounds every qualifying element and is attained. -/
theorem foldl_max_spec (f : Coord → ℚ) (P : Coord → Prop) [DecidablePred P] :
    ∀ (l : List Coord) (acc : ℚ),
      acc ≤ l.foldl (fun a x => if P x ∧ f x > a then f x else a) acc
      ∧ (∀ x ∈ l, P x → f x ≤ l.foldl (fun a x => if P x ∧ f x > a then f x else a) acc)
      ∧ (l.foldl (fun a x => if P x ∧ f x > a then f x else a) acc = acc
          ∨ ∃ x ∈ l, P x ∧ l.foldl (fun a x => if P x ∧ f x > a then f x else a) acc = f x) := by
  intro l
  induction l with
  | nil => exact fun acc => ⟨le_refl acc, fun x hx => absurd hx (List.not_mem_nil x), Or.inl rfl⟩
  | cons y l ih =>
    intro acc
    rw [List.foldl_cons]
    obtain ⟨ih1, ih2, ih3⟩ := ih (if P y ∧ f y > acc then f y else acc)
    have hstep : acc ≤ (if P y ∧ f y > acc then f y else acc) := by
      split
      · next hy => exact le_of_lt hy.2
      · exact le_refl acc
    refine ⟨le_trans hstep ih1, ?_, ?_⟩
    · intro x hx hP
      rcases List.mem_cons.1 hx with hxy | hxl
      · subst hxy
        refine le_trans ?_ ih1
        split
        · exact le_refl (f x)
        · next hy => exact le_of_not_lt (fun hgt => hy ⟨hP, hgt⟩)
      · exact ih2 x hxl hP
    · rcases ih3 with h3 | ⟨x, hx, hP, hfx⟩
      · rw [h3]
        split
        · next hy => exact Or.inr ⟨y, List.mem_cons_self y l, hy.1, rfl⟩
        · exact Or.inl rfl
      · exact Or.inr ⟨x, List.mem_cons_of_mem y hx, hP, hfx⟩

/-- Pointwise description of the first evaporateAndRender loop on a
duplicate-free active list: the grid is bulk-evaporated and the tracked
maximum is the running max over the evaporated cells. -/
theorem evapPass_spec (rho : ℚ) (st : PChan) :
    ∀ (cl : List Coord) (grid : Coord → Cell) (acc : ℚ), cl.Nodup →
      (∀ q, (World.evapPass rho st cl grid acc).1 q
          = if q ∈ cl then Position.evaporatePheromone rho (grid q) else grid q)
      ∧ (World.evapPass rho st cl grid acc).2
          = cl.foldl (fun a pos =>
              if (Position.evaporatePheromone rho (grid pos)).ctype = CellType.normal
                  ∧ Position.getP (Position.evaporatePheromone rho (grid pos)) st > a
              then Position.getP (Position.evaporatePheromone rho (grid pos)) st
              else a) acc := by
  intro cl
  induction cl with
  | nil =>
    intro grid acc _
    exact ⟨fun q => by simp [World.evapPass], by simp [World.evapPass]⟩
  | cons pos rest ih =>
    intro grid acc hnd
    obtain ⟨hpos, hrest⟩ := List.nodup_cons.1 hnd
    have hunfold : World.evapPass rho st (pos :: rest) grid acc
        = World.evapPass rho st rest
            (fun q => if q = pos then Position.evaporatePheromone rho (grid pos) else grid q)
            (if (Position.evaporatePheromone rho (grid pos)).ctype = CellType.normal
                ∧ Position.getP (Position.evaporatePheromone rho (grid pos)) st > acc
             then Position.getP (Position.evaporatePheromone rho (grid pos)) st
             else acc) := rfl
    obtain ⟨ih1, ih2⟩ := ih
      (fun q => if q = pos then Position.evaporatePheromone rho (grid pos) else grid q)
      (if (Position.evaporatePheromone rho (grid pos)).ctype = CellType.normal
          ∧ Position.getP (Position.evaporatePheromone rho (grid pos)) st > acc
       then Position.getP (Position.evaporatePheromone rho (grid pos)) st
       else acc) hrest
    constructor
    · intro q
      rw [hunfold, ih1 q]
      by_cases hq : q ∈ rest
      · have hqp : q ≠ pos := fun h => hpos (h ▸ hq)
        rw [if_pos hq, if_pos (List.mem_cons_of_mem pos hq), if_neg hqp]
      · rw [if_neg hq]
        by_cases hqp : q = pos
        · subst hqp
          rw [if_pos rfl, if_pos (List.mem_cons_self q rest)]
        · rw [if_neg hqp, if_neg (by simp [hqp, hq])]
    · rw [hunfold, ih2, List.foldl_cons]
      refine foldl_ext_mem rest _ _ ?_ _
      intro b x hx
      have hxp : x ≠ pos := fun h => hpos (h ▸ hx)
      rw [if_neg hxp]

/-- The code's clamp sequence is min/max clamping into [0,1]. -/
theorem showPheromone_eq_clamp (c : Cell) (maxVal : ℚ) (st : PChan)
    (h : c.ctype = CellType.normal) (hpos : 0 < maxVal) :
    Position.showPheromone c maxVal st
      = some (min 1 (max 0 (Position.getP c st / maxVal))) := by
  simp only [Position.showPheromone, if_pos h]
  rw [if_pos hpos]
  congr 1
  rw [min_def, max_def]
  split_ifs <;> linarith

/-- Every opacity handed to the renderer lies in [0,1]. -/
theorem showPheromone_mem_unit (c : Cell) (maxVal : ℚ) (st : PChan) (a : ℚ)
    (ha : Position.showPheromone c maxVal st = some a) : 0 ≤ a ∧ a ≤ 1 := by
  unfold Position.showPheromone at ha
  by_cases h : c.ctype = CellType.normal
  · rw [if_pos h] at ha
    injection ha with ha
    subst ha
    split_ifs <;> constructor <;> linarith
  · rw [if_neg h] at ha
    cases ha

/-- The spawn loop adds exactly the missing number of ants. -/
theorem topUpAux_length (P : Params) (w : WorldState) :
    ∀ (k : ℕ) (ants : List AntState) (g : Rng),
      ((topUpAux P w k (ants, g)).1).length = ants.length + k := by
  intro k
  induction k with
  | zero => intro ants g; rfl
  | succ k ih =>
    intro ants g
    show ((topUpAux P w k _).1).length = _
    rw [ih]
    simp
    omega

/-- One sub-step preserves the population size and emits one move event per
ant, in list order. -/
theorem subStep_spec (P : Params) (step : ℕ) :
    ∀ (l : List AntState) (w : WorldState) (g : Rng) (i : ℕ),
      (subStep P step l w g i).1.1.length = l.length
      ∧ (subStep P step l w g i).2
          = (List.range' i l.length).map (TickEvent.move step) := by
  intro l
  induction l with
  | nil => intro w g i; exact ⟨rfl, rfl⟩
  | cons a rest ih =>
    intro w g i
    obtain ⟨ih1, ih2⟩ := ih (Ant.move P w a g).2.1 (Ant.move P w a g).2.2 (i + 1)
    constructor
    · show (_ :: _).length = _
      simp [ih1]
    · show TickEvent.move step i :: _ = _
      rw [ih2, List.length_cons, List.range'_succ, List.map_cons]

/-- The sub-step loop preserves the population size and emits, per step, one
block of move events containing every ant once. -/
theorem subSteps_spec (P : Params) :
    ∀ (k step : ℕ) (ants : List AntState) (w : WorldState) (g : Rng),
      (subSteps P k step ants w g).1.1.length = ants.length
      ∧ (subSteps P k step ants w g).2
          = ((List.range' step k).map (fun s =>
              (List.range' 0 ants.length).map (TickEvent.move s))).flatten := by
  intro k
  induction k with
  | zero => intro step ants w g; exact ⟨rfl, rfl⟩
  | succ k ih =>
    intro step ants w g
    obtain ⟨hs1, hs2⟩ := subStep_spec P step ants w g 0
    obtain ⟨ih1, ih2⟩ := ih (step + 1) (subStep P step ants w g 0).1.1
      (subStep P step ants w g 0).1.2.1 (subStep P step ants w g 0).1.2.2
    constructor
    · show (subSteps P k (step + 1) _ _ _).1.1.length = _
      rw [ih1, hs1]
    · show (subStep P step ants w g 0).2 ++ (subSteps P k (step + 1) _ _ _).2 = _
      rw [ih2, hs1, hs2, List.range'_succ, List.map_cons, List.flatten_cons]

/-- C7: one external tick is exactly — population top-up (spawn events), then
`stepsPerTick` sub-steps in which every agent moves once per sub-step in a
fixed order, then exactly one evaporate-and-render pass, positioned after all
moves (never interleaved). -/
theorem claimC7_tick_order (P : Params) (w : WorldState) (ants : List AntState)
    (g : Rng) :
    ((runTick P w ants g).1.2.1).length = max P.antNumber ants.length
    ∧ (runTick P w ants g).2
        = List.replicate (P.antNumber - ants.length) TickEvent.spawn
          ++ (((List.range P.stepsPerTick).map (fun s =>
                (List.range (max P.antNumber ants.length)).map
                  (fun j => TickEvent.move s j))).flatten
              ++ [TickEvent.evaporate])
    ∧ ((runTick P w ants g).2.count TickEvent.evaporate = 1)
    ∧ (∀ i e, (runTick P w ants g).2[i]? = some e → e = TickEvent.evaporate →
        i = (runTick P w ants g).2.length - 1) := by
  obtain ⟨hss1, hss2⟩ := subSteps_spec P P.stepsPerTick 0
    (topUp P w ants g).1.1 w (topUp P w ants g).1.2
  have htop : ((topUp P w ants g).1.1).length = max P.antNumber ants.length := by
    show ((topUpAux P w (P.antNumber - ants.length) (ants, g)).1).length = _
    rw [topUpAux_length]
    omega
  have hants : ((runTick P w ants g).1.2.1).length = max P.antNumber ants.length := by
    show (subSteps P P.stepsPerTick 0
        (topUp P w ants g).1.1 w (topUp P w ants g).1.2).1.1.length = _
    rw [hss1, htop]
  have hevs : (runTick P w ants g).2
      = List.replicate (P.antNumber - ants.length) TickEvent.spawn
        ++ (((List.range P.stepsPerTick).map (fun s =>
              (List.range (max P.antNumber ants.length)).map
                (fun j => TickEvent.move s j))).flatten
            ++ [TickEvent.evaporate]) := by
    show List.replicate (P.antNumber - ants.length) TickEvent.spawn
        ++ ((subSteps P P.stepsPerTick 0
              (topUp P w ants g).1.1 w (topUp P w ants g).1.2).2
            ++ [TickEvent.evaporate]) = _
    rw [hss2, htop]
    congr 2
    simp only [List.range_eq_range']
  have hnotspawn : TickEvent.evaporate
      ∉ List.replicate (P.antNumber - ants.length) TickEvent.spawn := by
    simp [List.mem_replicate]
  have hnotmoves : TickEvent.evaporate
      ∉ ((List.range P.stepsPerTick).map (fun s =>
          (List.range (max P.antNumber ants.length)).map
            (fun j => TickEvent.move s j))).flatten := by
    intro hmem
    obtain ⟨l, hl, hel⟩ := List.mem_flatten.1 hmem
    obtain ⟨s, -, rfl⟩ := List.mem_map.1 hl
    obtain ⟨j, -, hj⟩ := List.mem_map.1 hel
    cases hj
  refine ⟨hants, hevs, ?_, ?_⟩
  · rw [hevs, List.count_append, List.count_append,
      List.count_eq_zero.2 hnotspawn, List.count_eq_zero.2 hnotmoves]
    rfl
  · intro i e hi he
    subst he
    rw [hevs] at hi
    rw [hevs]
    set L := List.replicate (P.antNumber - ants.length) TickEvent.spawn
      ++ ((List.range P.stepsPerTick).map (fun s =>
          (List.range (max P.antNumber ants.length)).map
            (fun j => TickEvent.move s j))).flatten with hL
    have hiL : L ++ [TickEvent.evaporate]
        = List.replicate (P.antNumber - ants.length) TickEvent.spawn
          ++ (((List.range P.stepsPerTick).map (fun s =>
                (List.range (max P.antNumber ants.length)).map
                  (fun j => TickEvent.move s j))).flatten
              ++ [TickEvent.evaporate]) := by
      rw [hL, List.append_assoc]
    rw [← hiL] at hi ⊢
    have hnotL : TickEvent.evaporate ∉ L := by
      rw [hL]
      intro hmem
      rcases List.mem_append.1 hmem with hmem | hmem
      · exact hnotspawn hmem
      · exact hnotmoves hmem
    by_cases hlt : i < L.length
    · exfalso
      rw [List.getElem?_append_left hlt] at hi
      exact hnotL (List.getElem?_mem hi)
    · push_neg at hlt
      rw [List.getElem?_append_right hlt] at hi
      have hi1 : i - L.length < 1 := by
        by_contra hc
        push_neg at hc
        rw [List.getElem?_eq_none (by simpa using hc)] at hi
        cases hi
      have : i = L.length := by omega
      subst this
      simp [List.length_append]

/-- Witness for C7: one tick with one ant to spawn and one sub-step produces
the trace [spawn, move 0 0, evaporate]. -/
theorem claimC7_witness :
    (runTick ⟨[], 1, 1, 1, 1/50, 100, 1, 500, 2000, 1, PChan.food⟩
        ⟨1, 1, uniformNormalGrid, [], (0, 0)⟩ [] ⟨fun _ => 0, 0⟩).2
      = [TickEvent.spawn, TickEvent.move 0 0, TickEvent.evaporate] := by
  refine (claimC7_tick_order ⟨[], 1, 1, 1, 1/50, 100, 1, 500, 2000, 1, PChan.food⟩
    ⟨1, 1, uniformNormalGrid, [], (0, 0)⟩ [] ⟨fun _ => 0, 0⟩).2.1.trans ?_
  decide

/-- Counterexample to C1 as stated: with one active Normal cell whose
post-evaporation food value is 49/100 (so 0 < maxP < 1), the code divides by
maxP itself and renders intensity 1, while the claim's formula
`clamp(value / max(maxP, 1), 0, 1)` yields 49/100. -/
theorem claimC1_counterexample :
    (World.evaporateAndRender (1/50) PChan.food
        ⟨1, 1, halfFoodGrid, [((0:ℤ), (0:ℤ))], (0, 0)⟩).2 = [some 1]
    ∧ specNormalizedIntensity (49/100) (49/100) = 49/100
    ∧ (0:ℚ) < 49/100 ∧ (49/100:ℚ) < 1
    ∧ ((1:ℚ) ≠ 49/100) := by
  refine ⟨?_, ?_, by norm_num, by norm_num, by norm_num⟩
  · norm_num [World.evaporateAndRender, World.evapPass, Position.evaporatePheromone,
      Position.showPheromone, Position.getP, Position.clampEps, halfFoodGrid]
  · norm_num [specNormalizedIntensity]

/-- C1 (amended): evaporateAndRender bulk-evaporates the active cells, takes
`maxP` = the maximum displayed-channel value over Normal active cells, and
renders every active Normal cell with intensity
`clamp(value / renderMax, 0, 1)` where `renderMax = maxP` if `maxP > 0` and
`1` otherwise (the spec's `max(maxP, 1)` only matches when maxP ≥ 1 or
maxP ≤ 0); all rendered intensities lie in [0,1]. -/
theorem claimC1_amended (rho : ℚ) (st : PChan) (w : WorldState)
    (hnd : w.checkList.Nodup) (g' : Coord → Cell) (m : ℚ)
    (hg' : g' = evapGrid rho w.checkList w.grid)
    (hm : m = maxPOf st w.checkList g') :
    ((World.evaporateAndRender rho st w).1.grid = g')
    ∧ ((World.evaporateAndRender rho st w).2
        = w.checkList.map (fun pos =>
            Position.showPheromone (g' pos) (if m > 0 then m else 1) st))
    ∧ (∀ o ∈ (World.evaporateAndRender rho st w).2, ∀ a, o = some a → 0 ≤ a ∧ a ≤ 1)
    ∧ (0 ≤ m)
    ∧ (∀ pos ∈ w.checkList, (g' pos).ctype = CellType.normal →
        Position.getP (g' pos) st ≤ m)
    ∧ (m = 0 ∨ ∃ pos ∈ w.checkList,
        (g' pos).ctype = CellType.normal ∧ m = Position.getP (g' pos) st)
    ∧ (∀ pos ∈ w.checkList, (g' pos).ctype = CellType.normal →
        Position.showPheromone (g' pos) (if m > 0 then m else 1) st
          = some (min 1 (max 0
              (Position.getP (g' pos) st / (if m > 0 then m else 1))))) := by
  obtain ⟨e1, e2⟩ := evapPass_spec rho st w.checkList w.grid 0 hnd
  have hgrid : (World.evapPass rho st w.checkList w.grid 0).1 = g' := by
    funext q
    rw [e1 q, hg']
    rfl
  have hmax : (World.evapPass rho st w.checkList w.grid 0).2 = m := by
    rw [e2, hm, hg', maxPOf]
    refine foldl_ext_mem w.checkList _ _ ?_ 0
    intro b x hx
    rw [evapGrid, if_pos hx]
  have h1 : (World.evaporateAndRender rho st w).1.grid
      = (World.evapPass rho st w.checkList w.grid 0).1 := rfl
  have h2 : (World.evaporateAndRender rho st w).2
      = w.checkList.map (fun pos =>
          Position.showPheromone ((World.evapPass rho st w.checkList w.grid 0).1 pos)
            (if (World.evapPass rho st w.checkList w.grid 0).2 > 0
             then (World.evapPass rho st w.checkList w.grid 0).2 else 1) st) := rfl
  have hmaxspec := foldl_max_spec (fun pos => Position.getP (g' pos) st)
    (fun pos => (g' pos).ctype = CellType.normal) w.checkList 0
  have hmfold : m = w.checkList.foldl
      (fun a x => if (g' x).ctype = CellType.normal ∧ Position.getP (g' x) st > a
        then Position.getP (g' x) st else a) 0 := by
    rw [hm, maxPOf]
  refine ⟨h1.trans hgrid, ?_, ?_, ?_, ?_, ?_, ?_⟩
  · rw [h2, hgrid, hmax]
  · intro o ho a ha
    rw [h2] at ho
    obtain ⟨pos, _, rfl⟩ := List.mem_map.1 ho
    exact showPheromone_mem_unit _ _ _ a ha
  · rw [hmfold]
    exact hmaxspec.1
  · intro pos hpos hn
    rw [hmfold]
    exact hmaxspec.2.1 pos hpos hn
  · rw [hmfold]
    rcases hmaxspec.2.2 with h | ⟨x, hx, hP, hfx⟩
    · exact Or.inl h
    · exact Or.inr ⟨x, hx, hP, hfx⟩
  · intro pos hpos hn
    have hdiv : (0:ℚ) < (if m > 0 then m else 1) := by
      split
      · next hm0 => exact hm0
      · norm_num
    exact showPheromone_eq_clamp (g' pos) _ st hn hdiv

/-- Witness for C1 (amended) on the one-cell world of the counterexample: the
rendered intensity is 49/100 divided by maxP = 49/100, clamped — i.e. 1. -/
theorem claimC1_witness :
    (World.evaporateAndRender (1/50) PChan.food
        ⟨1, 1, halfFoodGrid, [((0:ℤ), (0:ℤ))], (0, 0)⟩).2
      = [((0:ℤ), (0:ℤ))].map (fun pos =>
          Position.showPheromone
            (evapGrid (1/50) [((0:ℤ), (0:ℤ))] halfFoodGrid pos)
            (if maxPOf PChan.food [((0:ℤ), (0:ℤ))]
                (evapGrid (1/50) [((0:ℤ), (0:ℤ))] halfFoodGrid) > 0
             then maxPOf PChan.food [((0:ℤ), (0:ℤ))]
                (evapGrid (1/50) [((0:ℤ), (0:ℤ))] halfFoodGrid) else 1)
            PChan.food) := by
  exact (claimC1_amended (1/50) PChan.food
    ⟨1, 1, halfFoodGrid, [((0:ℤ), (0:ℤ))], (0, 0)⟩ (by simp)
    (evapGrid (1/50) [((0:ℤ), (0:ℤ))] halfFoodGrid)
    (maxPOf PChan.food [((0:ℤ), (0:ℤ))]
      (evapGrid (1/50) [((0:ℤ), (0:ℤ))] halfFoodGrid)) rfl rfl).2.1

/-- A successful grid move lands strictly inside the bounds. -/
theorem move_eq_some (pos direction : Coord) (xl yl deep : ℤ) (c : Coord)
    (h : Position.move pos direction xl yl deep = some c) :
    c = (pos.1 + direction.1 * deep, pos.2 + direction.2 * deep)
    ∧ 0 ≤ c.1 ∧ c.1 < xl ∧ 0 ≤ c.2 ∧ c.2 < yl := by
  simp only [Position.move] at h
  split_ifs at h with hcond
  push_neg at hcond
  obtain ⟨h1, h2, h3, h4⟩ := hcond
  cases h
  exact ⟨rfl, h1, h3, h2, h4⟩

/-- Every neighbor produced by _getNeighbors is in-bounds and not a Barrier. -/
theorem getNeighbors_mem_spec (M : List Coord) (w : WorldState) (current c : Coord)
    (h : c ∈ Ant.getNeighbors M w current) :
    (w.grid c).ctype ≠ CellType.barrier
    ∧ 0 ≤ c.1 ∧ c.1 < w.xl ∧ 0 ≤ c.2 ∧ c.2 < w.yl := by
  unfold Ant.getNeighbors at h
  have h1 := List.mem_filter.1 h
  obtain ⟨d, hd, hmove⟩ := List.mem_filterMap.1 h1.1
  refine ⟨by simpa using h1.2, ?_⟩
  exact (move_eq_some current d w.xl w.yl 1 c hmove).2

/-- C4: whatever _selectNext returns is an in-bounds, non-Barrier neighbor,
and it avoids the current path whenever the tabu-filtered candidate set was
nonempty (dead-end escape being the only exception). -/
theorem claimC4_tabu (M : List Coord) (alpha beta tau0 : ℝ) (w : WorldState)
    (status : AntStatus) (home : Coord) (path : List Coord) (r : ℝ) (current c : Coord)
    (hsel : Ant.selectNext M alpha beta tau0 w status home path r current = some c) :
    c ∈ Ant.getNeighbors M w current
    ∧ (w.grid c).ctype ≠ CellType.barrier
    ∧ (0 ≤ c.1 ∧ c.1 < w.xl ∧ 0 ≤ c.2 ∧ c.2 < w.yl)
    ∧ ((Ant.getNeighbors M w current).filter (fun n => !(Ant.isInPath path n)) ≠ [] →
        c ∉ path) := by
  simp only [Ant.selectNext] at hsel
  by_cases hne : Ant.getNeighbors M w current = []
  · rw [if_pos hne] at hsel
    cases hsel
  · rw [if_neg hne] at hsel
    have hmem := List.getElem?_mem hsel
    have hmemnb : c ∈ Ant.getNeighbors M w current := by
      by_cases hf : (Ant.getNeighbors M w current).filter
          (fun n => !(Ant.isInPath path n)) = []
      · rw [if_pos hf] at hmem
        exact hmem
      · rw [if_neg hf] at hmem
        exact List.mem_of_mem_filter hmem
    obtain ⟨hb, hi⟩ := getNeighbors_mem_spec M w current c hmemnb
    refine ⟨hmemnb, hb, hi, ?_⟩
    intro hf
    rw [if_neg hf] at hmem
    have := (List.mem_filter.1 hmem).2
    simpa [Ant.isInPath] using this

theorem selectValue_findFood_eq (alpha beta tau0 : ℝ) (home : Coord)
    (grid : Coord → Cell) (c : Coord) :
    Ant.selectValue AntStatus.findFood alpha beta tau0 home grid c
      = Real.rpow (((Position.getP (grid c) PChan.food : ℚ) : ℝ) + tau0) alpha
        * Real.rpow 1 beta := rfl

theorem selectValue_carryFood_eq (alpha beta tau0 : ℝ) (home : Coord)
    (grid : Coord → Cell) (c : Coord) :
    Ant.selectValue AntStatus.carryFood alpha beta tau0 home grid c
      = Real.rpow (((Position.getP (grid c) PChan.home : ℚ) : ℝ) + tau0) alpha
        * Real.rpow (if distHome c home > 0 then 1 / distHome c home else 100) beta := rfl

/-- Witness for C4: a seeking ant at (0,0) of a 1×2 grid with path [(0,0)] and
one candidate (0,1) selects (0,1), which is not on its path. -/
theorem claimC4_witness :
    Ant.selectNext [((0:ℤ), (1:ℤ))] 1 1 (1/100)
        ⟨1, 2, uniformNormalGrid, [], (0, 0)⟩ AntStatus.findFood (0, 0)
        [((0:ℤ), (0:ℤ))] (1/2) (0, 0) = some ((0:ℤ), (1:ℤ))
    ∧ ((0:ℤ), (1:ℤ)) ∉ [((0:ℤ), (0:ℤ))] := by
  have hnb : Ant.getNeighbors [((0:ℤ), (1:ℤ))]
      ⟨1, 2, uniformNormalGrid, [], (0, 0)⟩ (0, 0) = [((0:ℤ), (1:ℤ))] := by
    decide
  have hval : Ant.selectValue AntStatus.findFood 1 1 (1/100) ((0:ℤ), (0:ℤ))
      (⟨1, 2, uniformNormalGrid, [], (0, 0)⟩ : WorldState).grid ((0:ℤ), (1:ℤ))
      = 1/100 := by
    rw [selectValue_findFood_eq]
    show Real.rpow (((Position.getP (uniformNormalGrid ((0:ℤ), (1:ℤ))) PChan.food : ℚ) : ℝ)
        + 1/100) 1 * Real.rpow 1 1 = 1/100
    have hr1 : ∀ x : ℝ, Real.rpow x 1 = x := fun x => Real.rpow_one x
    have hr2 : ∀ x : ℝ, Real.rpow 1 x = 1 := fun x => Real.one_rpow x
    rw [hr1, hr2]
    norm_num [uniformNormalGrid, Position.getP]
  have hfil : ([((0:ℤ), (1:ℤ))].filter
      (fun n => !(Ant.isInPath [((0:ℤ), (0:ℤ))] n))) = [((0:ℤ), (1:ℤ))] := by
    decide
  have hnorm : Ant.normalizeValues [(1/100 : ℝ)] = [1] := by
    unfold Ant.normalizeValues
    norm_num
  have hrw : Ant.rouletteWheel [(1:ℝ)] (1/2) = 0 := by
    unfold Ant.rouletteWheel Ant.rouletteAux
    norm_num
  have hsel : Ant.selectNext [((0:ℤ), (1:ℤ))] 1 1 (1/100)
      ⟨1, 2, uniformNormalGrid, [], (0, 0)⟩ AntStatus.findFood (0, 0)
      [((0:ℤ), (0:ℤ))] (1/2) (0, 0) = some ((0:ℤ), (1:ℤ)) := by
    simp only [Ant.selectNext, hnb, hfil]
    rw [if_neg (by simp), if_neg (by simp)]
    simp only [List.map_cons, List.map_nil, hval, hnorm, hrw]
    rfl
  refine ⟨hsel, ?_⟩
  have h := claimC4_tabu [((0:ℤ), (1:ℤ))] 1 1 (1/100)
    ⟨1, 2, uniformNormalGrid, [], (0, 0)⟩ AntStatus.findFood (0, 0)
    [((0:ℤ), (0:ℤ))] (1/2) (0, 0) ((0:ℤ), (1:ℤ)) hsel
  exact h.2.2.2 (by rw [hnb, hfil]; simp)

/-- C6: the desirability of a candidate cell is `tau^alpha * eta^beta`, with
`tau` the food channel plus τ₀ and `eta = 1` while seeking food, and `tau` the
home channel plus τ₀ and `eta` the reciprocal Euclidean distance to home
(saturated to 100 at distance zero) while carrying food. -/
theorem claimC6_desirability (status : AntStatus) (alpha beta tau0 : ℝ)
    (home : Coord) (grid : Coord → Cell) (c : Coord) :
    0 ≤ distHome c home
    ∧ (status = AntStatus.findFood →
        Ant.selectValue status alpha beta tau0 home grid c
          = Real.rpow (((Position.getP (grid c) PChan.food : ℚ) : ℝ) + tau0) alpha
            * Real.rpow 1 beta)
    ∧ (status = AntStatus.carryFood →
        (0 < distHome c home →
          Ant.selectValue status alpha beta tau0 home grid c
            = Real.rpow (((Position.getP (grid c) PChan.home : ℚ) : ℝ) + tau0) alpha
              * Real.rpow (1 / distHome c home) beta)
        ∧ (distHome c home = 0 →
          Ant.selectValue status alpha beta tau0 home grid c
            = Real.rpow (((Position.getP (grid c) PChan.home : ℚ) : ℝ) + tau0) alpha
              * Real.rpow 100 beta)) := by
  refine ⟨Real.sqrt_nonneg _, ?_, ?_⟩
  · intro h
    subst h
    exact selectValue_findFood_eq alpha beta tau0 home grid c
  · intro h
    subst h
    constructor
    · intro hd
      rw [selectValue_carryFood_eq, if_pos hd]
    · intro hd
      rw [selectValue_carryFood_eq, hd, if_neg (lt_irrefl 0)]

/-- Witness for C6: carrying food at cell (3,4) with home (0,0), distance 5. -/
theorem claimC6_witness :
    (0:ℝ) < distHome ((3:ℤ), (4:ℤ)) ((0:ℤ), (0:ℤ))
    ∧ Ant.selectValue AntStatus.carryFood 1 2 (1/100) ((0:ℤ), (0:ℤ))
        uniformNormalGrid ((3:ℤ), (4:ℤ))
      = Real.rpow
          (((Position.getP (uniformNormalGrid ((3:ℤ), (4:ℤ))) PChan.home : ℚ) : ℝ) + 1/100) 1
        * Real.rpow (1 / distHome ((3:ℤ), (4:ℤ)) ((0:ℤ), (0:ℤ))) 2 := by
  have hd : distHome ((3:ℤ), (4:ℤ)) ((0:ℤ), (0:ℤ)) = 5 := by
    unfold distHome
    norm_num
    rw [show (25:ℝ) = 5 ^ 2 by norm_num]
    exact Real.sqrt_sq (by norm_num)
  have h := claimC6_desirability AntStatus.carryFood 1 2 (1/100) ((0:ℤ), (0:ℤ))
    uniformNormalGrid ((3:ℤ), (4:ℤ))
  exact ⟨by rw [hd]; norm_num, (h.2.2 rfl).1 (by rw [hd]; norm_num)⟩

/-- C10: `changeType` mutates the pheromone channels only on transitions to
Barrier (both zeroed) or Food (food channel set to the sentinel, home channel
zeroed); every other target type keeps both channels, so a Food cell changed
back to Normal retains the sentinel foodPheromone. -/
theorem claimC10_changeType (c : Cell) (t : CellType) :
    (Position.changeType c t).ctype = t
    ∧ (t = CellType.barrier →
        (Position.changeType c t).foodP = 0 ∧ (Position.changeType c t).homeP = 0)
    ∧ (t = CellType.food →
        (Position.changeType c t).foodP = Position.numberMaxValue
        ∧ (Position.changeType c t).homeP = 0)
    ∧ (t ≠ CellType.barrier → t ≠ CellType.food →
        (Position.changeType c t).foodP = c.foodP
        ∧ (Position.changeType c t).homeP = c.homeP)
    ∧ (Position.changeType (Position.changeType c CellType.food) CellType.normal).foodP
        = Position.numberMaxValue := by
  unfold Position.changeType
  cases t <;> simp

/-- Witness for C10: changing a Normal cell holding (3, 5) to Home leaves both
channels untouched, and a Food→Normal change keeps the sentinel. -/
theorem claimC10_witness :
    (Position.changeType ⟨3, 5, CellType.normal⟩ CellType.home).foodP = 3
    ∧ (Position.changeType ⟨3, 5, CellType.normal⟩ CellType.home).homeP = 5
    ∧ (Position.changeType
        (Position.changeType ⟨3, 5, CellType.normal⟩ CellType.food)
        CellType.normal).foodP = Position.numberMaxValue := by
  have h := claimC10_changeType (⟨3, 5, CellType.normal⟩ : Cell) CellType.home
  exact ⟨(h.2.2.2.1 (by decide) (by decide)).1,
    (h.2.2.2.1 (by decide) (by decide)).2,
    (claimC10_changeType (⟨3, 5, CellType.normal⟩ : Cell) CellType.home).2.2.2.2⟩

end AntSim
